import Mathlib

/-!
Shallow embedding of the kubesaw-cleaner teardown tool.

The Rust sources (`src/main.rs`, `src/crds.rs`) are embedded as pure Lean
functions.  The Kubernetes API client is modelled as a deterministic oracle
(`Client`): a record of response functions, one per API operation the program
performs.  Each embedded function returns its `Result` value together with the
ordered trace of API calls and log lines it emits (`List Event`), so that
claims about error propagation, call ordering and frame effects can be stated
over the trace.
-/

set_option autoImplicit false

/-- A CRD version entry: `name`, and the `served` / `storage` flags
(`CustomResourceDefinitionVersion` fields used by the program). -/
structure CrdVersion where
  name : String
  served : Bool
  storage : Bool
  deriving DecidableEq

/-- The `names` block of a CRD spec (`kind` and `plural` are the fields used). -/
structure CrdNames where
  kind : String
  plural : String
  deriving DecidableEq

/-- The CRD spec fields used by the program: `group`, `names`, `versions`. -/
structure CrdSpec where
  group : String
  names : CrdNames
  versions : List CrdVersion
  deriving DecidableEq

/-- Object metadata: optional `name`, optional `namespace`, optional
finalizer list — exactly the `ObjectMeta` fields the program touches. -/
structure ObjectMeta where
  name : Option String
  «namespace» : Option String
  finalizers : Option (List String)
  deriving DecidableEq

/-- A dynamic (runtime-typed) custom-resource instance: its metadata plus an
opaque payload standing for all fields the program never reads or writes. -/
structure DynamicObject where
  metadata : ObjectMeta
  data : String
  deriving DecidableEq

/-- A `CustomResourceDefinition`: metadata (for its name) and spec. -/
structure CustomResourceDefinition where
  metadata : ObjectMeta
  spec : CrdSpec
  deriving DecidableEq

/-- Resolved API coordinates, as built by
`ApiResource::from_gvk_with_plural` in the kube crate. -/
structure ApiResource where
  group : String
  version : String
  kind : String
  plural : String
  apiVersion : String
  deriving DecidableEq

/-- `ApiResource::from_gvk_with_plural`: `apiVersion` is `group/version`,
or just `version` for the empty (core) group. -/
def ApiResource.fromGvkWithPlural (group version kind plural : String) : ApiResource :=
  { group := group, version := version, kind := kind, plural := plural,
    apiVersion := if group = "" then version else group ++ "/" ++ version }

/-- An error value: either a fresh message (`eyre!`) or a wrapped inner error
(`wrap_err` / `map_err` with context). -/
inductive Err where
  | msg (s : String)
  | wrap (context : String) (inner : Err)
  deriving DecidableEq

/-- A Kubernetes `Status` response (payload irrelevant to the program). -/
structure KubeStatus where
  reason : String
  deriving DecidableEq

/-- One observable step of the program: an API call or a log line, in
program order. -/
inductive Event where
  | deleteWebhookCall (name : String)
  | listCrdsCall (label : String)
  | listInstancesCall (res : ApiResource)
  | getCall («namespace» name : String)
  | replaceCall («namespace» name : String) (obj : DynamicObject)
  | deleteCrdCall (name : String)
  | logInfo (msg : String)
  | logError (msg : String)
  | logTrace
  deriving DecidableEq

/-- The Kubernetes client, modelled as a deterministic oracle assigning a
response to every API call the program can make.  `delete` responses are
`Either`-shaped as in kube: `Sum.inl` carries the object ("deleting",
in progress), `Sum.inr` a `Status` ("deleted"). -/
structure Client where
  deleteWebhookResp : String → Except Err (Sum Unit KubeStatus)
  listCrdsResp : String → Except Err (List CustomResourceDefinition)
  listInstancesResp : ApiResource → Except Err (List DynamicObject)
  getResp : ApiResource → String → String → Except Err DynamicObject
  replaceResp : ApiResource → String → String → DynamicObject → Except Err DynamicObject
  deleteCrdResp : String → Except Err (Sum CustomResourceDefinition KubeStatus)

/-- The finalizer token removed (`main.rs:167`, `crds.rs:108`). -/
def TARGET_FINALIZER : String := "finalizer.toolchain.dev.openshift.com"

/-- The hard-coded webhook configuration name (`main.rs:93`). -/
def WEBHOOK_NAME : String := "users.spacebindingrequests.webhook.sandbox"

/-- The host-operator ownership label key (`main.rs:54`). -/
def HOST_LABEL : String :=
  "operators.coreos.com/toolchain-host-operator.toolchain-host-operator"

/-- The member-operator ownership label key (`main.rs:60`). -/
def MEMBER_LABEL : String :=
  "operators.coreos.com/toolchain-member-operator.toolchain-member-operator"

/-- `crd.name_any()`: the metadata name, or `""` when absent. -/
def nameAny (crd : CustomResourceDefinition) : String :=
  crd.metadata.name.getD ""

/-- The finalizer filtering of `main.rs:165-169` / `crds.rs:106-110`:
`finalizers.iter().filter(|f| *f != "finalizer.toolchain.dev.openshift.com").cloned().collect()`. -/
def newFinalizers (finalizers : List String) : List String :=
  finalizers.filter (fun f => f ≠ TARGET_FINALIZER)

/-- `object.metadata.finalizers = Some(new_finalizers)` (`main.rs:171`). -/
def setFinalizers (object : DynamicObject) (fins : List String) : DynamicObject :=
  { object with metadata := { object.metadata with finalizers := some fins } }

/-- The events contributed by `inspect_err` on the `replace` call
(`main.rs:176-178`): a log line on failure, nothing on success. -/
def replaceFailLog : Except Err DynamicObject → List Event
  | Except.ok _ => []
  | Except.error _ => [Event.logError "failed to update finalizers"]

/-- Storage-version resolution (`main.rs:118-123` / `crds.rs:59-64`):
`crd.spec.versions.iter().find(|v| v.storage).map(|v| v.name.clone())`. -/
def findStorageVersion (crd : CustomResourceDefinition) : Option String :=
  (crd.spec.versions.find? (fun v => v.storage)).map (fun v => v.name)

/-- The `filter_map` of `main.rs:152-157` / `crds.rs:93-98`: keep the
`(namespace, name)` pair of each listed instance whose metadata has both
fields (namespace first, then name, as the `?` operators run). -/
def instancePairs (items : List DynamicObject) : List (String × String) :=
  items.filterMap (fun cr =>
    (cr.metadata.«namespace»).bind (fun ns =>
      (cr.metadata.name).map (fun nm => (ns, nm))))

/-- The per-instance loop body of `patch_crs` (`main.rs:158-180`): re-fetch the
object (a fetch failure is logged and propagated with `?`, aborting the loop);
skip when `metadata.finalizers` is `None`; otherwise filter the target token
out and issue a `replace`, whose failure is only logged (`let _ =` +
`inspect_err`) before moving to the next pair. -/
def patchLoop (client : Client) (dyntype : ApiResource) :
    List (String × String) → Except Err Unit × List Event
  | [] => (Except.ok (), [])
  | (ns, nm) :: rest =>
    match client.getResp dyntype ns nm with
    | Except.error err =>
        (Except.error (Err.wrap "failed to retrieve object" err),
         [Event.getCall ns nm, Event.logError "failed to retrieve object"])
    | Except.ok object =>
        match object.metadata.finalizers with
        | none =>
            ((patchLoop client dyntype rest).1,
             Event.getCall ns nm :: (patchLoop client dyntype rest).2)
        | some finalizers =>
            ((patchLoop client dyntype rest).1,
             Event.getCall ns nm
               :: Event.logInfo "patching custom resource"
               :: Event.replaceCall ns nm (setFinalizers object (newFinalizers finalizers))
               :: (replaceFailLog
                     (client.replaceResp dyntype ns nm
                       (setFinalizers object (newFinalizers finalizers)))
                   ++ (patchLoop client dyntype rest).2))

/-- `patch_crs` (`main.rs:117-183`): resolve the storage version (logging and
erroring out when none exists), build the `ApiResource`, list all instances
(a list failure is logged and propagated), then run the per-instance loop over
the pairs with both namespace and name present. -/
def patch_crs (client : Client) (crd : CustomResourceDefinition) :
    Except Err Unit × List Event :=
  match findStorageVersion crd with
  | none =>
      (Except.error (Err.msg "CRD parsing failed"),
       [Event.logError "failed to find storage version of crd"])
  | some version =>
      match client.listInstancesResp
          (ApiResource.fromGvkWithPlural crd.spec.group version
            crd.spec.names.kind crd.spec.names.plural) with
      | Except.error err =>
          (Except.error (Err.wrap "failed to retrieve custom resources" err),
           [Event.logTrace,
            Event.listInstancesCall
              (ApiResource.fromGvkWithPlural crd.spec.group version
                crd.spec.names.kind crd.spec.names.plural),
            Event.logError "failed to retrieve custom resources"])
      | Except.ok items =>
          ((patchLoop client
              (ApiResource.fromGvkWithPlural crd.spec.group version
                crd.spec.names.kind crd.spec.names.plural)
              (instancePairs items)).1,
           Event.logTrace
             :: Event.listInstancesCall
                  (ApiResource.fromGvkWithPlural crd.spec.group version
                    crd.spec.names.kind crd.spec.names.plural)
             :: (patchLoop client
                  (ApiResource.fromGvkWithPlural crd.spec.group version
                    crd.spec.names.kind crd.spec.names.plural)
                  (instancePairs items)).2)

/-- `remove_crd` (`main.rs:104-113`): when the CRD has a name, issue a delete;
propagate a client error with `?`; both `Either` sides of a successful delete
return `Ok`, differing only in the log line (`map_left` / `map_right`). -/
def remove_crd (client : Client) (crd : CustomResourceDefinition) :
    Except Err Unit × List Event :=
  match crd.metadata.name with
  | none => (Except.ok (), [])
  | some name =>
      match client.deleteCrdResp name with
      | Except.error e => (Except.error e, [Event.deleteCrdCall name])
      | Except.ok (Sum.inl _) =>
          (Except.ok (), [Event.deleteCrdCall name, Event.logInfo "deleting crd"])
      | Except.ok (Sum.inr _) =>
          (Except.ok (), [Event.deleteCrdCall name, Event.logInfo "deleted crd"])

/-- `remove_webhook_configs` (`main.rs:89-101`): delete the hard-coded webhook
configuration; propagate a client error with `?`; both `Either` sides return
`Ok`, differing only in the log line. -/
def remove_webhook_configs (client : Client) : Except Err Unit × List Event :=
  match client.deleteWebhookResp WEBHOOK_NAME with
  | Except.error e => (Except.error e, [Event.deleteWebhookCall WEBHOOK_NAME])
  | Except.ok (Sum.inl _) =>
      (Except.ok (),
       [Event.deleteWebhookCall WEBHOOK_NAME, Event.logInfo "deleting webhooks"])
  | Except.ok (Sum.inr _) =>
      (Except.ok (),
       [Event.deleteWebhookCall WEBHOOK_NAME, Event.logInfo "deleted webhook config"])

/-- Recursion of `uniqueBy` (itertools `unique_by`): keep an element when its
key has not been seen, recording seen keys. -/
def uniqueByGo {α β : Type} [DecidableEq β] (key : α → β) :
    List α → List β → List α
  | [], _ => []
  | x :: rest, seen =>
      if key x ∈ seen then uniqueByGo key rest seen
      else x :: uniqueByGo key rest (key x :: seen)

/-- itertools `unique_by`: keep the first occurrence of each key, in order. -/
def uniqueBy {α β : Type} [DecidableEq β] (key : α → β) (xs : List α) : List α :=
  uniqueByGo key xs []

/-- The merged processing sequence of `run` (`main.rs:65-69`):
`host_crds.iter().chain(member_crds.iter()).unique_by(|crd| &crd.metadata.name)`. -/
def mergedCrds (host member : List CustomResourceDefinition) :
    List CustomResourceDefinition :=
  uniqueBy (fun crd => crd.metadata.name) (host ++ member)

/-- The events contributed by `inspect_err` on the `patch_crs` call in `run`
(`main.rs:72-78`): a log line on failure, nothing on success. -/
def patchFailLog : Except Err Unit → List Event
  | Except.ok _ => []
  | Except.error _ => [Event.logError "Failed to update CRs for resource"]

/-- The per-CRD loop of `run` (`main.rs:65-84`): for each CRD, log, run
`patch_crs` discarding its result (only logging a failure), then run
`remove_crd`, whose failure is wrapped and propagated with `?`, aborting the
loop; on success continue with the remaining CRDs. -/
def crdLoop (client : Client) :
    List CustomResourceDefinition → Except Err Unit × List Event
  | [] => (Except.ok (), [])
  | crd :: rest =>
      match (remove_crd client crd).1 with
      | Except.error e =>
          (Except.error (Err.wrap ("failed to delete crd " ++ nameAny crd) e),
           Event.logInfo "updating crds"
             :: ((patch_crs client crd).2
                 ++ patchFailLog (patch_crs client crd).1
                 ++ (remove_crd client crd).2))
      | Except.ok _ =>
          ((crdLoop client rest).1,
           Event.logInfo "updating crds"
             :: ((patch_crs client crd).2
                 ++ patchFailLog (patch_crs client crd).1
                 ++ (remove_crd client crd).2
                 ++ (crdLoop client rest).2))

/-- `run` (`main.rs:41-87`): remove the webhook configuration (failure wrapped
and propagated), list host-labelled then member-labelled CRDs (failures
propagated), deduplicate by name, then run the per-CRD loop. -/
def run (client : Client) : Except Err Unit × List Event :=
  match (remove_webhook_configs client).1 with
  | Except.error e =>
      (Except.error (Err.wrap "failed to remove stale webhooks, bailing" e),
       (remove_webhook_configs client).2)
  | Except.ok _ =>
      match client.listCrdsResp HOST_LABEL with
      | Except.error e =>
          (Except.error e,
           (remove_webhook_configs client).2 ++ [Event.listCrdsCall HOST_LABEL])
      | Except.ok host_crds =>
          match client.listCrdsResp MEMBER_LABEL with
          | Except.error e =>
              (Except.error e,
               (remove_webhook_configs client).2
                 ++ [Event.listCrdsCall HOST_LABEL, Event.listCrdsCall MEMBER_LABEL])
          | Except.ok member_crds =>
              ((crdLoop client (mergedCrds host_crds member_crds)).1,
               (remove_webhook_configs client).2
                 ++ [Event.listCrdsCall HOST_LABEL, Event.listCrdsCall MEMBER_LABEL]
                 ++ (crdLoop client (mergedCrds host_crds member_crds)).2)

namespace Crds

/-- The per-instance loop body of the second copy of `patch_crs`
(`crds.rs:99-121`), embedded separately from its own source text. -/
def patchLoop (client : Client) (dyntype : ApiResource) :
    List (String × String) → Except Err Unit × List Event
  | [] => (Except.ok (), [])
  | (ns, nm) :: rest =>
    match client.getResp dyntype ns nm with
    | Except.error err =>
        (Except.error (Err.wrap "failed to retrieve object" err),
         [Event.getCall ns nm, Event.logError "failed to retrieve object"])
    | Except.ok object =>
        match object.metadata.finalizers with
        | none =>
            ((Crds.patchLoop client dyntype rest).1,
             Event.getCall ns nm :: (Crds.patchLoop client dyntype rest).2)
        | some finalizers =>
            ((Crds.patchLoop client dyntype rest).1,
             Event.getCall ns nm
               :: Event.logInfo "patching custom resource"
               :: Event.replaceCall ns nm (setFinalizers object (newFinalizers finalizers))
               :: (replaceFailLog
                     (client.replaceResp dyntype ns nm
                       (setFinalizers object (newFinalizers finalizers)))
                   ++ (Crds.patchLoop client dyntype rest).2))

/-- `patch_crs` as duplicated in `crds.rs:58-124`, embedded from that file's
own text. -/
def patch_crs (client : Client) (crd : CustomResourceDefinition) :
    Except Err Unit × List Event :=
  match findStorageVersion crd with
  | none =>
      (Except.error (Err.msg "CRD parsing failed"),
       [Event.logError "failed to find storage version of crd"])
  | some version =>
      match client.listInstancesResp
          (ApiResource.fromGvkWithPlural crd.spec.group version
            crd.spec.names.kind crd.spec.names.plural) with
      | Except.error err =>
          (Except.error (Err.wrap "failed to retrieve custom resources" err),
           [Event.logTrace,
            Event.listInstancesCall
              (ApiResource.fromGvkWithPlural crd.spec.group version
                crd.spec.names.kind crd.spec.names.plural),
            Event.logError "failed to retrieve custom resources"])
      | Except.ok items =>
          ((Crds.patchLoop client
              (ApiResource.fromGvkWithPlural crd.spec.group version
                crd.spec.names.kind crd.spec.names.plural)
              (instancePairs items)).1,
           Event.logTrace
             :: Event.listInstancesCall
                  (ApiResource.fromGvkWithPlural crd.spec.group version
                    crd.spec.names.kind crd.spec.names.plural)
             :: (Crds.patchLoop client
                  (ApiResource.fromGvkWithPlural crd.spec.group version
                    crd.spec.names.kind crd.spec.names.plural)
                  (instancePairs items)).2)

/-- `remove_crd` as duplicated in `crds.rs:45-54`, embedded from that file's
own text. -/
def remove_crd (client : Client) (crd : CustomResourceDefinition) :
    Except Err Unit × List Event :=
  match crd.metadata.name with
  | none => (Except.ok (), [])
  | some name =>
      match client.deleteCrdResp name with
      | Except.error e => (Except.error e, [Event.deleteCrdCall name])
      | Except.ok (Sum.inl _) =>
          (Except.ok (), [Event.deleteCrdCall name, Event.logInfo "deleting crd"])
      | Except.ok (Sum.inr _) =>
          (Except.ok (), [Event.deleteCrdCall name, Event.logInfo "deleted crd"])

end Crds

/-! ### Concrete fixtures used by counterexamples and witnesses -/

/-- A well-formed CRD with a single storage version. -/
def exCrd : CustomResourceDefinition :=
  { metadata := { name := some "widgets.example.com", «namespace» := none,
                  finalizers := none },
    spec := { group := "example.com",
              names := { kind := "Widget", plural := "widgets" },
              versions := [{ name := "v1", served := true, storage := true }] } }

/-- The resolved coordinates of `exCrd`. -/
def exRes : ApiResource :=
  ApiResource.fromGvkWithPlural "example.com" "v1" "Widget" "widgets"

/-- A CRD whose version list has two `storage = true` entries. -/
def crdTwoStorage : CustomResourceDefinition :=
  { metadata := { name := some "gadgets.example.com", «namespace» := none,
                  finalizers := none },
    spec := { group := "example.com",
              names := { kind := "Gadget", plural := "gadgets" },
              versions := [{ name := "v1", served := true, storage := true },
                           { name := "v2", served := true, storage := true }] } }

/-- A CRD with no `storage = true` entry. -/
def crdNoStorage : CustomResourceDefinition :=
  { metadata := { name := some "sprockets.example.com", «namespace» := none,
                  finalizers := none },
    spec := { group := "example.com",
              names := { kind := "Sprocket", plural := "sprockets" },
              versions := [{ name := "v1", served := true, storage := false }] } }

/-- An instance carrying the target finalizer. -/
def exObjA : DynamicObject :=
  { metadata := { name := some "a", «namespace» := some "ns",
                  finalizers := some [TARGET_FINALIZER, "other.io/keep"] },
    data := "a" }

/-- A second instance carrying the target finalizer. -/
def exObjB : DynamicObject :=
  { metadata := { name := some "b", «namespace» := some "ns",
                  finalizers := some [TARGET_FINALIZER] },
    data := "b" }

/-- An instance whose finalizer list is present but empty. -/
def exObjEmpty : DynamicObject :=
  { metadata := { name := some "e", «namespace» := some "ns",
                  finalizers := some [] },
    data := "e" }

/-- A client for which every operation succeeds; `get` answers with `exObjA`
for name `"a"`, `exObjB` otherwise. -/
def okClient : Client :=
  { deleteWebhookResp := fun _ => Except.ok (Sum.inr { reason := "ok" }),
    listCrdsResp := fun _ => Except.ok [],
    listInstancesResp := fun _ => Except.ok [exObjA, exObjB],
    getResp := fun _ _ nm => if nm = "a" then Except.ok exObjA else Except.ok exObjB,
    replaceResp := fun _ _ _ obj => Except.ok obj,
    deleteCrdResp := fun _ => Except.ok (Sum.inr { reason := "ok" }) }

/-- A client for which fetching instance `"a"` fails while everything else
succeeds. -/
def fetchFailClient : Client :=
  { deleteWebhookResp := fun _ => Except.ok (Sum.inr { reason := "ok" }),
    listCrdsResp := fun _ => Except.ok [],
    listInstancesResp := fun _ => Except.ok [exObjA, exObjB],
    getResp := fun _ _ nm =>
      if nm = "a" then Except.error (Err.msg "boom") else Except.ok exObjB,
    replaceResp := fun _ _ _ obj => Except.ok obj,
    deleteCrdResp := fun _ => Except.ok (Sum.inr { reason := "ok" }) }

/-- A client whose only listed instance has a present-but-empty finalizer
list. -/
def emptyFinClient : Client :=
  { deleteWebhookResp := fun _ => Except.ok (Sum.inr { reason := "ok" }),
    listCrdsResp := fun _ => Except.ok [],
    listInstancesResp := fun _ => Except.ok [exObjEmpty],
    getResp := fun _ _ _ => Except.ok exObjEmpty,
    replaceResp := fun _ _ _ obj => Except.ok obj,
    deleteCrdResp := fun _ => Except.ok (Sum.inr { reason := "ok" }) }

/-! ### C1: finalizer filtering -/

/-- C1: filtering the finalizer list before the replace write removes every
occurrence of the target token `"finalizer.toolchain.dev.openshift.com"`,
keeps the count of every other token (duplicates included), preserves the
original relative order (the result is a sublist of the input), and returns
the input unchanged when the target token is absent. -/
theorem finalizer_filter_correct (L : List String) :
    TARGET_FINALIZER ∉ newFinalizers L ∧
    (∀ f, f ≠ TARGET_FINALIZER → (newFinalizers L).count f = L.count f) ∧
    (newFinalizers L).Sublist L ∧
    (TARGET_FINALIZER ∉ L → newFinalizers L = L) := by
  refine ⟨?_, ?_, ?_, ?_⟩
  · simp [newFinalizers]
  · intro f hf
    simp only [newFinalizers]
    rw [List.count_filter]
    simp [hf]
  · exact List.filter_sublist L
  · intro habs
    apply List.filter_eq_self.mpr
    intro a ha
    simp only [decide_eq_true_eq]
    intro hcontra
    exact habs (hcontra ▸ ha)

/-- C1 witness: the filtering evaluated at a concrete list containing the
target token, a duplicate pair and another token. -/
theorem finalizer_filter_correct_witness :
    "other.io/keep" ≠ TARGET_FINALIZER ∧
    (newFinalizers [TARGET_FINALIZER, "other.io/keep", "other.io/keep"]).count
        "other.io/keep" =
      ([TARGET_FINALIZER, "other.io/keep", "other.io/keep"] : List String).count
        "other.io/keep" ∧
    (TARGET_FINALIZER ∉ (["other.io/keep"] : List String) →
      newFinalizers ["other.io/keep"] = ["other.io/keep"]) :=
  ⟨by decide,
   (finalizer_filter_correct [TARGET_FINALIZER, "other.io/keep", "other.io/keep"]).2.1
     "other.io/keep" (by decide),
   (finalizer_filter_correct ["other.io/keep"]).2.2.2⟩

/-! ### C3: storage-version resolution -/

/-- C3 counterexample: `crdTwoStorage` has two `storage = true` entries, yet
resolution returns the first entry's name instead of failing. -/
theorem storage_version_many_cex :
    (crdTwoStorage.spec.versions.filter (fun v => v.storage)).length = 2 ∧
    findStorageVersion crdTwoStorage = some "v1" := ⟨rfl, rfl⟩

/-- `find?` returns the head of the filtered list: the first element
satisfying the predicate. -/
theorem find?_eq_filter_head? {α : Type} (p : α → Bool) :
    ∀ l : List α, l.find? p = (l.filter p).head? := by
  intro l
  induction l with
  | nil => rfl
  | cons x rest ih =>
      cases hx : p x
      · rw [List.find?_cons_of_neg _ (by simp [hx]), ih]
        simp [List.filter_cons, hx]
      · rw [List.find?_cons_of_pos _ hx]
        simp [List.filter_cons, hx]

/-- C3 (amended): resolution returns the name of the first `storage = true`
entry whenever at least one exists — for every CRD, whatever element heads the
list of `storage = true` entries is the one whose name is returned, so in
particular with exactly one such entry it is that entry's name — and fails
(yields `none`, making `patch_crs` return the `"CRD parsing failed"` error)
exactly when no entry has `storage = true`.  With more than one
`storage = true` entry it does not fail: it returns the first one's name. -/
theorem storage_version_resolution (crd : CustomResourceDefinition) :
    ((∀ v, v ∈ crd.spec.versions → v.storage = false) →
        findStorageVersion crd = none) ∧
    (∀ v, (crd.spec.versions.filter (fun v => v.storage)).head? = some v →
        findStorageVersion crd = some v.name) ∧
    (∀ v, v ∈ crd.spec.versions → v.storage = true →
        (∀ w, w ∈ crd.spec.versions → w.storage = true → w = v) →
        findStorageVersion crd = some v.name) ∧
    (∀ v, v ∈ crd.spec.versions → v.storage = true →
        ∃ nm, findStorageVersion crd = some nm) ∧
    (∀ client, findStorageVersion crd = none →
        (patch_crs client crd).1 = Except.error (Err.msg "CRD parsing failed")) := by
  refine ⟨?_, ?_, ?_, ?_, ?_⟩
  · intro hall
    have : crd.spec.versions.find? (fun v => v.storage) = none := by
      apply List.find?_eq_none.mpr
      intro v hv
      simp [hall v hv]
    simp [findStorageVersion, this]
  · intro v hhead
    rw [findStorageVersion, find?_eq_filter_head?, hhead]
    rfl
  · intro v hv hst huniq
    rcases hfind : crd.spec.versions.find? (fun v => v.storage) with _ | w
    · exact absurd hfind (by
        intro h
        have := List.find?_eq_none.mp h v hv
        simp [hst] at this)
    · have hw1 : w.storage = true := by
        have := List.find?_some hfind
        simpa using this
      have hw2 : w ∈ crd.spec.versions := List.mem_of_find?_eq_some hfind
      have : w = v := huniq w hw2 hw1
      simp [findStorageVersion, hfind, this]
  · intro v hv hst
    rcases hfind : crd.spec.versions.find? (fun v => v.storage) with _ | w
    · exact absurd hfind (by
        intro h
        have := List.find?_eq_none.mp h v hv
        simp [hst] at this)
    · exact ⟨w.name, by simp [findStorageVersion, hfind]⟩
  · intro client hnone
    simp [patch_crs, hnone]

/-- C3 witness: resolution evaluated on a CRD with exactly one storage
version, on one with two `storage = true` entries (where the general
first-entry clause yields `"v1"`), and `patch_crs` on one with none. -/
theorem storage_version_resolution_witness :
    findStorageVersion exCrd = some "v1" ∧
    findStorageVersion crdTwoStorage = some "v1" ∧
    (patch_crs okClient crdNoStorage).1 = Except.error (Err.msg "CRD parsing failed") :=
  ⟨(storage_version_resolution exCrd).2.1
      { name := "v1", served := true, storage := true } rfl,
   (storage_version_resolution crdTwoStorage).2.1
      { name := "v1", served := true, storage := true } rfl,
   (storage_version_resolution crdNoStorage).2.2.2.2 okClient rfl⟩

/-! ### C2: per-instance failure policy -/

/-- C2 counterexample: with two listed instances `("ns","a")` and `("ns","b")`
and a client whose fetch of `"a"` fails, `patch_crs` propagates the fetch
error and never fetches (nor writes) instance `"b"`: the patch step for the
remaining instances is abandoned, contradicting the claim that a fetch
failure only logs and continues. -/
theorem patch_fetch_failure_aborts_cex :
    (patch_crs fetchFailClient exCrd).1 =
      Except.error (Err.wrap "failed to retrieve object" (Err.msg "boom")) ∧
    (patch_crs fetchFailClient exCrd).2 =
      [Event.logTrace, Event.listInstancesCall exRes, Event.getCall "ns" "a",
       Event.logError "failed to retrieve object"] ∧
    Event.getCall "ns" "b" ∉ (patch_crs fetchFailClient exCrd).2 :=
  ⟨rfl, rfl, by decide⟩

/-- C2 (amended): in the per-instance loop, a failure to replace (write) a
single instance is logged and the loop continues to the next pair — indeed
whenever the fetch succeeds, the result and the remaining trace are those of
the rest of the loop, whatever the replace outcome; but a failure to fetch a
single instance is logged and then propagated, aborting the patch step for
all remaining instances of that CRD. -/
theorem patch_loop_failure_policy (client : Client) (dt : ApiResource)
    (ns nm : String) (rest : List (String × String)) :
    ((client.getResp dt ns nm).isOk = true →
        (patchLoop client dt ((ns, nm) :: rest)).1 = (patchLoop client dt rest).1 ∧
        ∃ pre, (patchLoop client dt ((ns, nm) :: rest)).2 =
          pre ++ (patchLoop client dt rest).2) ∧
    (∀ e, client.getResp dt ns nm = Except.error e →
        (patchLoop client dt ((ns, nm) :: rest)).1 =
          Except.error (Err.wrap "failed to retrieve object" e) ∧
        (patchLoop client dt ((ns, nm) :: rest)).2 =
          [Event.getCall ns nm, Event.logError "failed to retrieve object"]) ∧
    (∀ obj fins e, client.getResp dt ns nm = Except.ok obj →
        obj.metadata.finalizers = some fins →
        client.replaceResp dt ns nm (setFinalizers obj (newFinalizers fins)) =
          Except.error e →
        Event.logError "failed to update finalizers" ∈
          (patchLoop client dt ((ns, nm) :: rest)).2) := by
  refine ⟨?_, ?_, ?_⟩
  · intro hok
    rcases hget : client.getResp dt ns nm with e | obj
    · rw [hget] at hok; simp [Except.isOk, Except.toBool] at hok
    · rcases hfin : obj.metadata.finalizers with _ | fins
      · exact ⟨by simp [patchLoop, hget, hfin], [Event.getCall ns nm],
          by simp [patchLoop, hget, hfin]⟩
      · refine ⟨by simp [patchLoop, hget, hfin], ?_⟩
        exact ⟨Event.getCall ns nm
                 :: Event.logInfo "patching custom resource"
                 :: Event.replaceCall ns nm (setFinalizers obj (newFinalizers fins))
                 :: replaceFailLog
                      (client.replaceResp dt ns nm (setFinalizers obj (newFinalizers fins))),
               by simp [patchLoop, hget, hfin]⟩
  · intro e hget
    exact ⟨by simp [patchLoop, hget], by simp [patchLoop, hget]⟩
  · intro obj fins e hget hfin hrep
    simp [patchLoop, hget, hfin, hrep, replaceFailLog]

/-- C2 witness: the amended policy evaluated at `fetchFailClient` — the fetch
of `("ns","a")` fails, so the loop's result is the wrapped error with exactly
the fetch call and its log in the trace; and at `okClient` the loop over
`("ns","b")` continues past the head pair. -/
theorem patch_loop_failure_policy_witness :
    ((patchLoop fetchFailClient exRes [("ns", "a")]).1 =
        Except.error (Err.wrap "failed to retrieve object" (Err.msg "boom")) ∧
      (patchLoop fetchFailClient exRes [("ns", "a")]).2 =
        [Event.getCall "ns" "a", Event.logError "failed to retrieve object"]) ∧
    (patchLoop okClient exRes [("ns", "b")]).1 =
      (patchLoop okClient exRes []).1 :=
  ⟨(patch_loop_failure_policy fetchFailClient exRes "ns" "a" []).2.1
      (Err.msg "boom") rfl,
   ((patch_loop_failure_policy okClient exRes "ns" "b" []).1 rfl).1⟩

/-! ### C4: per-CRD error policy of the orchestrator -/

/-- A host-labelled CRD whose deletion the failing client denies. -/
def crdA : CustomResourceDefinition :=
  { metadata := { name := some "a.example.com", «namespace» := none,
                  finalizers := none },
    spec := { group := "example.com",
              names := { kind := "Alpha", plural := "alphas" },
              versions := [{ name := "v1", served := true, storage := true }] } }

/-- A second host-labelled CRD, never reached by the failing run. -/
def crdB : CustomResourceDefinition :=
  { metadata := { name := some "b.example.com", «namespace» := none,
                  finalizers := none },
    spec := { group := "example.com",
              names := { kind := "Beta", plural := "betas" },
              versions := [{ name := "v1", served := true, storage := true }] } }

/-- A client for which discovery succeeds (host list `[crdA, crdB]`) and
everything else succeeds except deleting `crdA`. -/
def deleteFailClient : Client :=
  { deleteWebhookResp := fun _ => Except.ok (Sum.inr { reason := "ok" }),
    listCrdsResp := fun label =>
      if label = HOST_LABEL then Except.ok [crdA, crdB] else Except.ok [],
    listInstancesResp := fun _ => Except.ok [],
    getResp := fun _ _ _ => Except.ok exObjB,
    replaceResp := fun _ _ _ obj => Except.ok obj,
    deleteCrdResp := fun nm =>
      if nm = "a.example.com" then Except.error (Err.msg "delete denied")
      else Except.ok (Sum.inr { reason := "ok" }) }

/-- C4 counterexample: with `deleteFailClient`, discovery succeeds, yet the
failure to delete `crdA` terminates the run with an error — `crdB` is never
processed (no delete call for it appears in the trace) — contradicting the
claim that only discovery or client-setup failures are fatal. -/
theorem crd_delete_failure_fatal_cex :
    deleteFailClient.listCrdsResp HOST_LABEL = Except.ok [crdA, crdB] ∧
    (run deleteFailClient).1 =
      Except.error (Err.wrap "failed to delete crd a.example.com"
        (Err.msg "delete denied")) ∧
    Event.deleteCrdCall "b.example.com" ∉ (run deleteFailClient).2 :=
  ⟨rfl, rfl, by decide⟩

/-- A client whose webhook-configuration delete fails (everything else as in
`okClient`). -/
def webhookFailClient : Client :=
  { okClient with
    deleteWebhookResp := fun _ => Except.error (Err.msg "webhook denied") }

/-- A client whose member-labelled CRD list call fails while the webhook
removal and the host-labelled list call succeed. -/
def memberFailClient : Client :=
  { okClient with
    listCrdsResp := fun label =>
      if label = MEMBER_LABEL then Except.error (Err.msg "member list denied")
      else Except.ok [] }

/-- C4 (amended): in the orchestrator's per-CRD loop an error from patching a
CRD's instances does not stop the loop — whenever that CRD's deletion
succeeds, the loop's result and remaining trace are those of the remaining
CRDs, whatever the patch outcome was — but an error from deleting a CRD
terminates the loop (and hence the run) with a wrapped fatal error; a failure
of either discovery list call (host or member label) is likewise fatal to the
run, as is a failure of the webhook-removal step, whose error the run wraps
and returns. -/
theorem per_crd_error_policy (client : Client) (crd : CustomResourceDefinition)
    (rest : List CustomResourceDefinition) :
    ((remove_crd client crd).1 = Except.ok () →
        (crdLoop client (crd :: rest)).1 = (crdLoop client rest).1 ∧
        ∃ pre, (crdLoop client (crd :: rest)).2 =
          pre ++ (crdLoop client rest).2) ∧
    (∀ e, (remove_crd client crd).1 = Except.error e →
        (crdLoop client (crd :: rest)).1 =
          Except.error (Err.wrap ("failed to delete crd " ++ nameAny crd) e)) ∧
    (∀ e, (remove_webhook_configs client).1 = Except.ok () →
        client.listCrdsResp HOST_LABEL = Except.error e →
        (run client).1 = Except.error e) ∧
    (∀ e host, (remove_webhook_configs client).1 = Except.ok () →
        client.listCrdsResp HOST_LABEL = Except.ok host →
        client.listCrdsResp MEMBER_LABEL = Except.error e →
        (run client).1 = Except.error e) ∧
    (∀ e, (remove_webhook_configs client).1 = Except.error e →
        (run client).1 =
          Except.error (Err.wrap "failed to remove stale webhooks, bailing" e)) := by
  refine ⟨?_, ?_, ?_, ?_, ?_⟩
  · intro hok
    refine ⟨by simp [crdLoop, hok], ?_⟩
    exact ⟨Event.logInfo "updating crds"
             :: ((patch_crs client crd).2
                 ++ patchFailLog (patch_crs client crd).1
                 ++ (remove_crd client crd).2),
           by simp [crdLoop, hok]⟩
  · intro e herr
    simp [crdLoop, herr]
  · intro e hw hl
    simp [run, hw, hl]
  · intro e host hw hh hm
    simp [run, hw, hh, hm]
  · intro e hw
    simp [run, hw]

/-- C4 witness: at `deleteFailClient`, the failing deletion of `crdA` makes
the loop over `[crdA, crdB]` return the wrapped fatal error; at `okClient`,
a successful deletion lets the loop continue to the rest; at
`webhookFailClient` and `memberFailClient`, the run is fatal on the failing
webhook removal and member list call respectively. -/
theorem per_crd_error_policy_witness :
    (crdLoop deleteFailClient [crdA, crdB]).1 =
      Except.error (Err.wrap ("failed to delete crd " ++ nameAny crdA)
        (Err.msg "delete denied")) ∧
    (crdLoop okClient [exCrd]).1 = (crdLoop okClient []).1 ∧
    (run memberFailClient).1 = Except.error (Err.msg "member list denied") ∧
    (run webhookFailClient).1 =
      Except.error (Err.wrap "failed to remove stale webhooks, bailing"
        (Err.msg "webhook denied")) :=
  ⟨(per_crd_error_policy deleteFailClient crdA [crdB]).2.1
      (Err.msg "delete denied") rfl,
   ((per_crd_error_policy okClient exCrd []).1 rfl).1,
   (per_crd_error_policy memberFailClient exCrd []).2.2.2.1
      (Err.msg "member list denied") [] rfl rfl rfl,
   (per_crd_error_policy webhookFailClient exCrd []).2.2.2.2
      (Err.msg "webhook denied") rfl⟩

/-! ### C5: idempotent deletion -/

/-- Modelled from the spec: the kube client's response to deleting a target
that no longer exists is not part of this repository's sources (it lives in
the kube dependency); the spec's client contract (§6) requires the client to
report "already absent" as a non-error outcome, i.e. a `Status` response. -/
def absentDeleteResp {α : Type} : Except Err (Sum α KubeStatus) :=
  Except.ok (Sum.inr { reason := "NotFound" })

/-- C5: deleting a CRD by name and deleting the webhook configuration by name
are idempotent: when the target no longer exists (the client answers with the
already-absent `Status` outcome of the §6 contract) the operation returns
`Ok`, exactly as for a fresh deletion (the in-progress `Sum.inl` outcome);
the two cases produce the same delete call and differ only in the info log
line. -/
theorem delete_idempotent (client : Client) (crd : CustomResourceDefinition)
    (nm : String) (hnm : crd.metadata.name = some nm) :
    (client.deleteCrdResp nm = absentDeleteResp →
        (remove_crd client crd).1 = Except.ok () ∧
        (remove_crd client crd).2 =
          [Event.deleteCrdCall nm, Event.logInfo "deleted crd"]) ∧
    (∀ obj, client.deleteCrdResp nm = Except.ok (Sum.inl obj) →
        (remove_crd client crd).1 = Except.ok () ∧
        (remove_crd client crd).2 =
          [Event.deleteCrdCall nm, Event.logInfo "deleting crd"]) ∧
    (client.deleteWebhookResp WEBHOOK_NAME = absentDeleteResp →
        (remove_webhook_configs client).1 = Except.ok () ∧
        (remove_webhook_configs client).2 =
          [Event.deleteWebhookCall WEBHOOK_NAME,
           Event.logInfo "deleted webhook config"]) ∧
    (∀ u, client.deleteWebhookResp WEBHOOK_NAME = Except.ok (Sum.inl u) →
        (remove_webhook_configs client).1 = Except.ok () ∧
        (remove_webhook_configs client).2 =
          [Event.deleteWebhookCall WEBHOOK_NAME,
           Event.logInfo "deleting webhooks"]) := by
  refine ⟨?_, ?_, ?_, ?_⟩
  · intro h
    constructor <;> simp [remove_crd, hnm, h, absentDeleteResp]
  · intro obj h
    constructor <;> simp [remove_crd, hnm, h]
  · intro h
    constructor <;> simp [remove_webhook_configs, h, absentDeleteResp]
  · intro u h
    constructor <;> simp [remove_webhook_configs, h]

/-- C5 witness: deletion evaluated at a client answering the already-absent
`Status` outcome for both the CRD and the webhook configuration. -/
theorem delete_idempotent_witness :
    ((remove_crd
        { okClient with deleteCrdResp := fun _ => absentDeleteResp } exCrd).1 =
      Except.ok ()) ∧
    ((remove_webhook_configs
        { okClient with deleteWebhookResp := fun _ => absentDeleteResp }).1 =
      Except.ok ()) :=
  ⟨((delete_idempotent
        { okClient with deleteCrdResp := fun _ => absentDeleteResp }
        exCrd "widgets.example.com" rfl).1 rfl).1,
   ((delete_idempotent
        { okClient with deleteWebhookResp := fun _ => absentDeleteResp }
        exCrd "widgets.example.com" rfl).2.2.1 rfl).1⟩

/-! ### C6: ordering guarantees of the run -/

/-- The webhook-removal trace always begins with the webhook delete call. -/
theorem webhook_trace_shape (client : Client) :
    ∃ t, (remove_webhook_configs client).2 =
      Event.deleteWebhookCall WEBHOOK_NAME :: t := by
  rcases h : client.deleteWebhookResp WEBHOOK_NAME with e | x
  · exact ⟨[], by simp [remove_webhook_configs, h]⟩
  · rcases x with u | s
    · exact ⟨[Event.logInfo "deleting webhooks"], by simp [remove_webhook_configs, h]⟩
    · exact ⟨[Event.logInfo "deleted webhook config"],
        by simp [remove_webhook_configs, h]⟩

/-- Whenever the CRD has a name, `remove_crd` issues the delete call. -/
theorem remove_crd_trace_mem (client : Client) (crd : CustomResourceDefinition)
    (nm : String) (h : crd.metadata.name = some nm) :
    Event.deleteCrdCall nm ∈ (remove_crd client crd).2 := by
  rcases hd : client.deleteCrdResp nm with e | x
  · simp [remove_crd, h, hd]
  · rcases x with o | s <;> simp [remove_crd, h, hd]

/-- C6: the run's very first event is the webhook configuration delete call,
so webhook removal is executed before any CRD is discovered, patched or
deleted; if webhook removal fails, the run stops with only the webhook trace
(no CRD is touched at all); and for each CRD in the loop the full
instance-patching trace of that CRD precedes everything else, while the CRD's
own delete call appears afterwards whenever the CRD has a name — with no
hypothesis on the patch step's outcome, i.e. the deletion is issued
regardless of patch errors. -/
theorem run_ordering (client : Client) :
    ((run client).2.head? = some (Event.deleteWebhookCall WEBHOOK_NAME)) ∧
    (∀ e, (remove_webhook_configs client).1 = Except.error e →
        (run client).2 = (remove_webhook_configs client).2) ∧
    (∀ crd rest, ∃ mid,
        (crdLoop client (crd :: rest)).2 =
          Event.logInfo "updating crds" :: ((patch_crs client crd).2 ++ mid) ∧
        (∀ nm, crd.metadata.name = some nm → Event.deleteCrdCall nm ∈ mid)) := by
  obtain ⟨t, ht⟩ := webhook_trace_shape client
  refine ⟨?_, ?_, ?_⟩
  · rcases hw : (remove_webhook_configs client).1 with e | u
    · simp [run, hw, ht]
    · rcases hh : client.listCrdsResp HOST_LABEL with e | host
      · simp [run, hw, hh, ht]
      · rcases hm : client.listCrdsResp MEMBER_LABEL with e | member
        · simp [run, hw, hh, hm, ht]
        · simp [run, hw, hh, hm, ht]
  · intro e hw
    simp [run, hw]
  · intro crd rest
    rcases hr : (remove_crd client crd).1 with e | u
    · refine ⟨patchFailLog (patch_crs client crd).1 ++ (remove_crd client crd).2,
        by simp [crdLoop, hr], ?_⟩
      intro nm hnm
      simp [List.mem_append, remove_crd_trace_mem client crd nm hnm]
    · refine ⟨patchFailLog (patch_crs client crd).1 ++ (remove_crd client crd).2
          ++ (crdLoop client rest).2,
        by simp [crdLoop, hr], ?_⟩
      intro nm hnm
      simp [List.mem_append, remove_crd_trace_mem client crd nm hnm]

/-- C6 witness: the ordering facts evaluated at `okClient`: the run's first
event is the webhook delete call, and the loop over `[exCrd]` contains the
CRD's delete call after the patch trace. -/
theorem run_ordering_witness :
    ((run okClient).2.head? = some (Event.deleteWebhookCall WEBHOOK_NAME)) ∧
    (∃ mid,
        (crdLoop okClient ([exCrd] : List CustomResourceDefinition)).2 =
          Event.logInfo "updating crds" :: ((patch_crs okClient exCrd).2 ++ mid) ∧
        (∀ nm, exCrd.metadata.name = some nm → Event.deleteCrdCall nm ∈ mid)) :=
  ⟨(run_ordering okClient).1, (run_ordering okClient).2.2 exCrd []⟩

/-! ### C7: deduplication of the merged CRD list -/

/-- Every element `uniqueByGo` keeps has a key outside the seen set. -/
theorem uniqueByGo_not_seen {α β : Type} [DecidableEq β] (key : α → β) :
    ∀ (xs : List α) (seen : List β) (a : α),
      a ∈ uniqueByGo key xs seen → key a ∉ seen := by
  intro xs
  induction xs with
  | nil => intro seen a h; simp [uniqueByGo] at h
  | cons x rest ih =>
      intro seen a h
      by_cases hx : key x ∈ seen
      · rw [uniqueByGo, if_pos hx] at h
        exact ih seen a h
      · rw [uniqueByGo, if_neg hx] at h
        rcases List.mem_cons.mp h with rfl | h
        · exact hx
        · intro hmem
          exact ih (key x :: seen) a h (List.mem_cons_of_mem _ hmem)

/-- The keys of the elements `uniqueByGo` keeps are pairwise distinct. -/
theorem uniqueByGo_nodup_keys {α β : Type} [DecidableEq β] (key : α → β) :
    ∀ (xs : List α) (seen : List β),
      ((uniqueByGo key xs seen).map key).Nodup := by
  intro xs
  induction xs with
  | nil => intro seen; simp [uniqueByGo]
  | cons x rest ih =>
      intro seen
      by_cases hx : key x ∈ seen
      · rw [uniqueByGo, if_pos hx]
        exact ih seen
      · rw [uniqueByGo, if_neg hx]
        rw [List.map_cons, List.nodup_cons]
        refine ⟨?_, ih (key x :: seen)⟩
        intro hmem
        rcases List.mem_map.mp hmem with ⟨a, ha, hka⟩
        exact uniqueByGo_not_seen key rest (key x :: seen) a ha
          (hka ▸ List.mem_cons_self (key x) seen)

/-- Every key reached by `uniqueByGo` and not already seen is represented in
the output. -/
theorem uniqueByGo_covers {α β : Type} [DecidableEq β] (key : α → β) :
    ∀ (xs : List α) (seen : List β) (a : α), a ∈ xs → key a ∉ seen →
      ∃ b, b ∈ uniqueByGo key xs seen ∧ key b = key a := by
  intro xs
  induction xs with
  | nil => intro seen a ha; simp at ha
  | cons x rest ih =>
      intro seen a ha hseen
      by_cases hx : key x ∈ seen
      · rw [uniqueByGo, if_pos hx]
        rcases List.mem_cons.mp ha with rfl | ha
        · exact absurd hx hseen
        · exact ih seen a ha hseen
      · rw [uniqueByGo, if_neg hx]
        rcases List.mem_cons.mp ha with rfl | ha
        · exact ⟨a, List.mem_cons_self _ _, rfl⟩
        · by_cases hk : key a = key x
          · exact ⟨x, List.mem_cons_self _ _, hk.symm⟩
          · have : key a ∉ key x :: seen := by
              intro h
              rcases List.mem_cons.mp h with h | h
              · exact hk h
              · exact hseen h
            rcases ih (key x :: seen) a ha this with ⟨b, hb, hkb⟩
            exact ⟨b, List.mem_cons_of_mem _ hb, hkb⟩

/-- `uniqueByGo` only keeps elements of its input. -/
theorem uniqueByGo_subset {α β : Type} [DecidableEq β] (key : α → β) :
    ∀ (xs : List α) (seen : List β) (a : α),
      a ∈ uniqueByGo key xs seen → a ∈ xs := by
  intro xs
  induction xs with
  | nil => intro seen a h; simp [uniqueByGo] at h
  | cons x rest ih =>
      intro seen a h
      by_cases hx : key x ∈ seen
      · rw [uniqueByGo, if_pos hx] at h
        exact List.mem_cons_of_mem _ (ih seen a h)
      · rw [uniqueByGo, if_neg hx] at h
        rcases List.mem_cons.mp h with rfl | h
        · exact List.mem_cons_self _ _
        · exact List.mem_cons_of_mem _ (ih (key x :: seen) a h)

/-- C7: the merged processing sequence the orchestrator builds from the
host-labelled and member-labelled discovery results contains each CRD name at
most once (the mapped name list has no duplicates); every discovered CRD name
is still represented; and the sequence only contains discovered CRDs.  A CRD
present in both lists by name is therefore processed exactly once. -/
theorem merged_crds_dedup (host member : List CustomResourceDefinition) :
    ((mergedCrds host member).map (fun crd => crd.metadata.name)).Nodup ∧
    (∀ crd, crd ∈ host ++ member →
      ∃ crd2, crd2 ∈ mergedCrds host member ∧
        crd2.metadata.name = crd.metadata.name) ∧
    (∀ crd, crd ∈ mergedCrds host member → crd ∈ host ++ member) := by
  refine ⟨uniqueByGo_nodup_keys _ _ _, ?_, ?_⟩
  · intro crd hmem
    exact uniqueByGo_covers _ (host ++ member) [] crd hmem (by simp)
  · intro crd hmem
    exact uniqueByGo_subset _ (host ++ member) [] crd hmem

/-- C7 witness: deduplication evaluated on discovery results sharing `exCrd`:
the merged sequence still carries the shared name, and `crdA`'s name too. -/
theorem merged_crds_dedup_witness :
    (∃ crd2, crd2 ∈ mergedCrds [exCrd, crdA] [exCrd] ∧
        crd2.metadata.name = exCrd.metadata.name) ∧
    (∃ crd2, crd2 ∈ mergedCrds [exCrd, crdA] [exCrd] ∧
        crd2.metadata.name = crdA.metadata.name) :=
  ⟨(merged_crds_dedup [exCrd, crdA] [exCrd]).2.1 exCrd (by simp),
   (merged_crds_dedup [exCrd, crdA] [exCrd]).2.1 crdA (by simp)⟩

/-! ### C8: skipping instances without finalizers -/

/-- C8 counterexample: `exObjEmpty` carries a present-but-empty finalizer
list, and the patcher does issue a replace write for it (the filtered list is
again empty, so the written object equals the fetched one), contradicting the
claim that an instance whose finalizer list is absent *or empty* is skipped
without a replace write. -/
theorem empty_finalizer_replace_cex :
    exObjEmpty.metadata.finalizers = some [] ∧
    Event.replaceCall "ns" "e" exObjEmpty ∈ (patch_crs emptyFinClient exCrd).2 :=
  ⟨rfl, by decide⟩

/-- C8 (amended): the patcher skips an instance without issuing a replace
write exactly when the fetched object's finalizer list is absent (`None`): in
that case the instance contributes only its fetch call to the trace and the
loop's outcome is that of the remaining pairs.  When the list is present —
even when it is empty — a replace write is issued for the filtered object. -/
theorem no_finalizer_skip (client : Client) (dt : ApiResource) (ns nm : String)
    (rest : List (String × String)) (obj : DynamicObject)
    (hget : client.getResp dt ns nm = Except.ok obj) :
    (obj.metadata.finalizers = none →
        (patchLoop client dt ((ns, nm) :: rest)).1 =
          (patchLoop client dt rest).1 ∧
        (patchLoop client dt ((ns, nm) :: rest)).2 =
          Event.getCall ns nm :: (patchLoop client dt rest).2) ∧
    (∀ fins, obj.metadata.finalizers = some fins →
        Event.replaceCall ns nm (setFinalizers obj (newFinalizers fins)) ∈
          (patchLoop client dt ((ns, nm) :: rest)).2) := by
  constructor
  · intro hfin
    exact ⟨by simp [patchLoop, hget, hfin], by simp [patchLoop, hget, hfin]⟩
  · intro fins hfin
    simp [patchLoop, hget, hfin]

/-- An instance whose finalizer field is absent. -/
def exObjNoFin : DynamicObject :=
  { metadata := { name := some "n", «namespace» := some "ns",
                  finalizers := none },
    data := "" }

/-- A client fetching `exObjNoFin` for every get. -/
def noFinClient : Client :=
  { okClient with getResp := fun _ _ _ => Except.ok exObjNoFin }

/-- C8 witness: the skip evaluated at a client fetching an object with no
finalizer field, and the replace at `emptyFinClient` whose object has a
present-but-empty list. -/
theorem no_finalizer_skip_witness :
    (patchLoop noFinClient exRes [("ns", "n")]).2 =
      Event.getCall "ns" "n" :: (patchLoop noFinClient exRes []).2 ∧
    Event.replaceCall "ns" "e" (setFinalizers exObjEmpty (newFinalizers [])) ∈
      (patchLoop emptyFinClient exRes [("ns", "e")]).2 :=
  ⟨((no_finalizer_skip noFinClient exRes "ns" "n" [] exObjNoFin rfl).1 rfl).2,
   (no_finalizer_skip emptyFinClient exRes "ns" "e" [] exObjEmpty rfl).2
     [] rfl⟩

/-! ### C9: selection of instances with both namespace and name -/

/-- Membership in the pair list built by the `filter_map`: a pair is kept
exactly when some listed instance carries both metadata fields. -/
theorem instancePairs_mem (items : List DynamicObject) (ns nm : String) :
    (ns, nm) ∈ instancePairs items ↔
      ∃ cr, cr ∈ items ∧ cr.metadata.«namespace» = some ns ∧
        cr.metadata.name = some nm := by
  constructor
  · intro h
    simp only [instancePairs, List.mem_filterMap] at h
    rcases h with ⟨cr, hcr, heq⟩
    rcases hns : cr.metadata.«namespace» with _ | ns0 <;> rw [hns] at heq
    · simp at heq
    · rcases hnm : cr.metadata.name with _ | nm0 <;> rw [hnm] at heq
      · simp at heq
      · simp at heq
        exact ⟨cr, hcr, by rw [hns, heq.1], by rw [hnm, heq.2]⟩
  · rintro ⟨cr, hcr, hns, hnm⟩
    exact List.mem_filterMap.mpr ⟨cr, hcr, by simp [hns, hnm]⟩

/-- Every fetch or write the per-instance loop performs targets a pair of its
input list. -/
theorem patchLoop_calls_from_pairs (client : Client) (dt : ApiResource) :
    ∀ (pairs : List (String × String)) (ns nm : String),
      (Event.getCall ns nm ∈ (patchLoop client dt pairs).2 → (ns, nm) ∈ pairs) ∧
      (∀ obj, Event.replaceCall ns nm obj ∈ (patchLoop client dt pairs).2 →
        (ns, nm) ∈ pairs) := by
  intro pairs
  induction pairs with
  | nil => intro ns nm; simp [patchLoop]
  | cons p rest ih =>
      rcases p with ⟨ns0, nm0⟩
      intro ns nm
      rcases hget : client.getResp dt ns0 nm0 with e | obj
      · constructor
        · intro h
          simp [patchLoop, hget] at h
          simp [h.1, h.2]
        · intro obj h
          simp [patchLoop, hget] at h
      · rcases hfin : obj.metadata.finalizers with _ | fins
        · constructor
          · intro h
            simp [patchLoop, hget, hfin] at h
            rcases h with ⟨h1, h2⟩ | h
            · simp [h1, h2]
            · exact List.mem_cons_of_mem _ ((ih ns nm).1 h)
          · intro obj2 h
            simp [patchLoop, hget, hfin] at h
            exact List.mem_cons_of_mem _ ((ih ns nm).2 obj2 h)
        · rcases hrep : client.replaceResp dt ns0 nm0
              (setFinalizers obj (newFinalizers fins)) with e | o <;>
            constructor
          · intro h
            simp [patchLoop, hget, hfin, hrep, replaceFailLog] at h
            rcases h with ⟨h1, h2⟩ | h
            · simp [h1, h2]
            · exact List.mem_cons_of_mem _ ((ih ns nm).1 h)
          · intro obj2 h
            simp [patchLoop, hget, hfin, hrep, replaceFailLog] at h
            rcases h with ⟨h1, h2, _⟩ | h
            · simp [h1, h2]
            · exact List.mem_cons_of_mem _ ((ih ns nm).2 obj2 h)
          · intro h
            simp [patchLoop, hget, hfin, hrep, replaceFailLog] at h
            rcases h with ⟨h1, h2⟩ | h
            · simp [h1, h2]
            · exact List.mem_cons_of_mem _ ((ih ns nm).1 h)
          · intro obj2 h
            simp [patchLoop, hget, hfin, hrep, replaceFailLog] at h
            rcases h with ⟨h1, h2, _⟩ | h
            · simp [h1, h2]
            · exact List.mem_cons_of_mem _ ((ih ns nm).2 obj2 h)

/-- C9: the finalizer patcher loops over exactly the listed instances having
both a metadata namespace and a metadata name — a pair is looped over iff
such an instance exists — and every fetch call and every replace call in the
loop's trace targets such a pair; a listed instance missing either field is
therefore never fetched or written. -/
theorem instance_selection (client : Client) (dt : ApiResource)
    (items : List DynamicObject) :
    (∀ ns nm, ((ns, nm) ∈ instancePairs items ↔
        ∃ cr, cr ∈ items ∧ cr.metadata.«namespace» = some ns ∧
          cr.metadata.name = some nm)) ∧
    (∀ ns nm, Event.getCall ns nm ∈ (patchLoop client dt (instancePairs items)).2 →
        ∃ cr, cr ∈ items ∧ cr.metadata.«namespace» = some ns ∧
          cr.metadata.name = some nm) ∧
    (∀ ns nm obj,
        Event.replaceCall ns nm obj ∈ (patchLoop client dt (instancePairs items)).2 →
        ∃ cr, cr ∈ items ∧ cr.metadata.«namespace» = some ns ∧
          cr.metadata.name = some nm) := by
  refine ⟨fun ns nm => instancePairs_mem items ns nm, ?_, ?_⟩
  · intro ns nm h
    exact (instancePairs_mem items ns nm).mp
      ((patchLoop_calls_from_pairs client dt (instancePairs items) ns nm).1 h)
  · intro ns nm obj h
    exact (instancePairs_mem items ns nm).mp
      ((patchLoop_calls_from_pairs client dt (instancePairs items) ns nm).2 obj h)

/-- C9 witness: the selection evaluated at `okClient` over the listed items
`[exObjA]`: the loop's fetch of `("ns","a")` indeed comes from an item with
both fields. -/
theorem instance_selection_witness :
    ∃ cr, cr ∈ [exObjA] ∧ cr.metadata.«namespace» = some "ns" ∧
      cr.metadata.name = some "a" :=
  (instance_selection okClient exRes [exObjA]).2.1 "ns" "a" (by decide)

/-! ### C10: the duplicated per-CRD logic -/

/-- The two copies of the per-instance loop agree on every input. -/
theorem crds_patchLoop_eq (client : Client) (dt : ApiResource) :
    ∀ pairs, Crds.patchLoop client dt pairs = patchLoop client dt pairs := by
  intro pairs
  induction pairs with
  | nil => rfl
  | cons p rest ih =>
      rcases p with ⟨ns, nm⟩
      rcases hget : client.getResp dt ns nm with e | obj
      · simp [Crds.patchLoop, patchLoop, hget]
      · rcases hfin : obj.metadata.finalizers with _ | fins <;>
          simp [Crds.patchLoop, patchLoop, hget, hfin, ih]

/-- C10: the duplicated per-CRD logic is extensionally equal: `patch_crs` as
written in `crds.rs` computes the same result and trace of API operations as
`patch_crs` in `main.rs` for every client and CRD, and likewise `remove_crd`
in the two files. -/
theorem duplicated_logic_extensional :
    (∀ client crd, Crds.patch_crs client crd = patch_crs client crd) ∧
    (∀ client crd, Crds.remove_crd client crd = remove_crd client crd) := by
  constructor
  · intro client crd
    rcases hv : findStorageVersion crd with _ | version
    · simp [Crds.patch_crs, patch_crs, hv]
    · rcases hl : client.listInstancesResp
          (ApiResource.fromGvkWithPlural crd.spec.group version
            crd.spec.names.kind crd.spec.names.plural) with e | items
      · simp [Crds.patch_crs, patch_crs, hv, hl]
      · simp [Crds.patch_crs, patch_crs, hv, hl, crds_patchLoop_eq]
  · intro client crd
    rcases hn : crd.metadata.name with _ | nm
    · simp [Crds.remove_crd, remove_crd, hn]
    · rcases hd : client.deleteCrdResp nm with e | x
      · simp [Crds.remove_crd, remove_crd, hn, hd]
      · rcases x with o | s <;> simp [Crds.remove_crd, remove_crd, hn, hd]
